import Mathlib

/-!
Verification of the stdpipe photometry core (`stdpipe/photometry.py`).

The development shallowly embeds the algorithmic core of the module:

* `get_objects_sep` (source lines 39-156): background masking, two-pass
  large-object masking, edge filtering, aperture photometry, flux-to-magnitude
  conversion, quality cuts, and the final sort of the measurement table.
* `get_objects_sextractor` (source lines 158-303): the external-binary
  extraction path, its own edge/quality filter and flag merging.
* `make_series` / `match` (source lines 305-426): the design-matrix builder
  and the robust zero-point fitting loop, with its exported `zero_fn` surface.
* `get_background` (source lines 428-440): background-estimation glue,
  including its Python local-variable scoping (the `backrms` / `back_rms`
  name mismatch is modelled by an explicit local environment lookup).

External collaborators (sep, photutils, SExtractor, statsmodels, esutil.htm,
astropy WCS, numpy transcendental functions) are modelled as opaque function
parameters gathered in environment structures; everything the Python module
itself computes is embedded over `ℚ` (numpy floats become exact rationals,
NaN-able values become `Option ℚ` with `none` playing the role of a
non-finite entry).
-/

namespace Stdpipe

/-- Round half to even, as `np.round` does; used by the edge filter of
`get_objects_sep` (source line 100). -/
def npRound (q : ℚ) : ℤ :=
  if q - ⌊q⌋ = 1/2 then (if ⌊q⌋ % 2 = 0 then ⌊q⌋ else ⌊q⌋ + 1) else round q

/-- An all-false boolean pixel grid, as `np.zeros_like(image, dtype=np.bool)`
(source lines 49-52). -/
def gridZeros (h w : ℕ) : List (List Bool) :=
  List.replicate h (List.replicate w false)

/-- Elementwise OR of two boolean pixel grids, as `mask | mask_bg | mask_segm`
(source lines 57, 81, 108). -/
def gridOr (a b : List (List Bool)) : List (List Bool) :=
  List.zipWith (fun ra rb => List.zipWith or ra rb) a b

/-- True when the circular aperture of radius `aper` centred at `(x, y)`
covers some set pixel of the grid; pixel `(i, j)` (row `i`, column `j`) sits
at coordinates `(x, y) = (j, i)`.  This expresses the geometric side
condition of the large-object contamination property. -/
def overlapsMask (m : List (List Bool)) (x y aper : ℚ) : Bool :=
  m.enum.any fun ri => ri.2.enum.any fun cj =>
    cj.2 && decide ((x - (cj.1 : ℚ)) ^ 2 + (y - (ri.1 : ℚ)) ^ 2 ≤ aper ^ 2)

/-- One raw detection from `sep.extract` (fields of the `obj0` record array
used by `get_objects_sep`: source lines 81-149). -/
structure SepObj where
  x : ℚ
  y : ℚ
  errx2 : ℚ
  erry2 : ℚ
  a : ℚ
  b : ℚ
  theta : ℚ
  flag : ℕ
  tnpix : ℕ
  npix : ℕ
deriving DecidableEq

/-- One row of the output measurement table, with exactly the columns built
at source lines 141-149 (and 266-274 for the SExtractor path). -/
structure Measurement where
  x : ℚ
  y : ℚ
  xerr : ℚ
  yerr : ℚ
  flux : ℚ
  fluxerr : ℚ
  mag : ℚ
  magerr : ℚ
  flags : ℕ
  ra : ℚ
  dec : ℚ
  bg : ℚ
  fwhm : ℚ
  a : ℚ
  b : ℚ
  theta : ℚ
deriving DecidableEq

instance : Inhabited Measurement :=
  ⟨⟨0, 0, 0, 0, 0, 0, 0, 0, 0, 0, 0, 0, 0, 0, 0, 0⟩⟩

/-- Process-wide state of the `sep` library.  `sep.set_extract_pixstack`
(source line 63) writes this global on every `get_objects_sep` call. -/
structure SepGlobals where
  extract_pixstack : ℕ
deriving DecidableEq

/-- The effect of `sep.set_extract_pixstack(n)` on the library's global
state (source line 63). -/
def set_extract_pixstack (n : ℕ) (_g : SepGlobals) : SepGlobals := ⟨n⟩

/-- Collaborator bundle for `get_objects_sep`.  Every field is an external
service used by the function: numpy transcendentals, the sep background /
extraction / aperture-photometry engine, the dilation step, and the WCS
transform.  `firstPassLargeMask` packages source lines 70-76: the first
extraction pass with a segmentation map, the selection of segments with
`npix > npix_large`, and the 10x10 dilation of their footprint. -/
structure SepEnv where
  log10 : ℚ → ℚ
  ln : ℚ → ℚ
  sqrt : ℚ → ℚ
  pi : ℚ
  firstPassLargeMask : List (List Bool) → List (List Bool)
  extract : List (List Bool) → List SepObj
  phot : List (List Bool) → ℚ → ℚ → ℚ × ℚ × ℕ
  bgphot : List (List Bool) → ℚ → ℚ → ℚ
  fluxRadius : ℚ → ℚ → ℚ
  medianFwhm : ℚ
  wcs : Option (ℚ → ℚ → ℚ × ℚ)
  headerWcs : Option (ℚ → ℚ → ℚ × ℚ)

/-- Keyword parameters of `get_objects_sep` (source line 39), plus the image
shape `h × w`.  `thresh`, `r0`, `gain`, `minarea` and `npix_large` are only
forwarded to collaborators; `subtract_bg` selects which image the
collaborators see (source lines 58-61). -/
structure SepParams where
  h : ℕ
  w : ℕ
  thresh : ℚ
  aper : ℚ
  r0 : ℚ
  gain : ℚ
  edge : ℤ
  minnthresh : ℕ
  minarea : ℕ
  npix_large : ℕ
  sn : ℚ
  use_fwhm : Bool
  use_mask_large : Bool
  subtract_bg : Bool

/-- The dilated large-object mask `mask_segm`: all-false unless
`use_mask_large` is set, in which case it is the collaborator's dilated
footprint of large first-pass objects (source lines 52, 65-76). -/
def sepMaskSegm (env : SepEnv) (p : SepParams) (mask0 : List (List Bool)) : List (List Bool) :=
  if p.use_mask_large then env.firstPassLargeMask (gridOr mask0 (gridZeros p.h p.w))
  else gridZeros p.h p.w

/-- The combined exclusion mask `mask | mask_bg | mask_segm` passed to the
final extraction and photometry calls (source lines 81, 108, 110). -/
def combinedMask (env : SepEnv) (p : SepParams) (mask : Option (List (List Bool))) :
    List (List Bool) :=
  let mask0 := mask.getD (gridZeros p.h p.w)
  gridOr (gridOr mask0 (gridZeros p.h p.w)) (sepMaskSegm env p mask0)

/-- The photometric aperture actually used: the FWHM-adaptive value
`max(1.5*fwhm, aper)` when `use_fwhm` is set (source lines 83-90; the median
FWHM itself comes from collaborator calls), else the configured aperture. -/
def sepAper (env : SepEnv) (p : SepParams) : ℚ :=
  if p.use_fwhm then max (1.5 * env.medianFwhm) p.aper else p.aper

/-- The edge / minimum-pixel filter `idx` of `get_objects_sep`
(source lines 100-103): `np.round` of each coordinate must be strictly
inside the `edge` margin, and when `minnthresh` is non-zero (Python
truthiness) the thresholded pixel count must reach it. -/
def sepKeep (p : SepParams) (o : SepObj) : Bool :=
  decide (p.edge < npRound o.x) && decide (p.edge < npRound o.y) &&
  decide (npRound o.x < (p.w : ℤ) - p.edge) && decide (npRound o.y < (p.h : ℤ) - p.edge) &&
  (p.minnthresh == 0 || decide (p.minnthresh ≤ o.tnpix))

/-- Per-object measurement of `get_objects_sep` (source lines 108-149):
aperture photometry, background aperture photometry, the masked
flux-to-magnitude conversion `mag[flux>0] = -2.5*log10(flux)` and
`magerr[flux>0] = 2.5/ln(10)*fluxerr/flux` (zeros elsewhere), the FWHM
half-flux measurement, the flag merge `flag |= obj0['flag']` and the final
`flags` column `obj0['flag'] | flag`, and the WCS conversion (zero-filled
when no transform is available). -/
def sepRow (env : SepEnv) (combined : List (List Bool)) (resolved : Option (ℚ → ℚ → ℚ × ℚ))
    (aper : ℚ) (o : SepObj) : Measurement :=
  let ph := env.phot combined o.x o.y
  let flux := ph.1
  let fluxerr := ph.2.1
  let photFlag := ph.2.2
  let bgflux := env.bgphot combined o.x o.y
  let mag := if 0 < flux then -2.5 * env.log10 flux else 0
  let magerr := if 0 < flux then 2.5 / env.ln 10 * fluxerr / flux else 0
  let flag2 := photFlag ||| o.flag
  let rd := match resolved with
    | some f => f o.x o.y
    | none => ((0 : ℚ), (0 : ℚ))
  { x := o.x, y := o.y,
    xerr := env.sqrt o.errx2, yerr := env.sqrt o.erry2,
    flux := flux, fluxerr := fluxerr,
    mag := mag, magerr := magerr,
    flags := o.flag ||| flag2,
    ra := rd.1, dec := rd.2,
    bg := bgflux / env.pi / aper ^ 2,
    fwhm := 2 * env.fluxRadius o.x o.y,
    a := o.a, b := o.b, theta := o.theta }

/-- Descending-flux order used by `obj.sort('flux', reverse=True)`
(source lines 154, 278). -/
def fluxGe (m1 m2 : Measurement) : Prop := m2.flux ≤ m1.flux

instance : DecidableRel fluxGe := fun m1 m2 => inferInstanceAs (Decidable (m2.flux ≤ m1.flux))

instance : IsTotal Measurement fluxGe := ⟨fun m1 m2 => le_total m2.flux m1.flux⟩

instance : IsTrans Measurement fluxGe := ⟨fun _ _ _ h1 h2 => le_trans h2 h1⟩

/-- The measurement table returned by `get_objects_sep` (source lines
100-154): edge filter, per-object measurement, the quality cut
`fidx = (flux > 0) & (magerr < 1/sn)` (line 126), and the descending-flux
sort (line 154). -/
def sepTable (env : SepEnv) (p : SepParams) (mask : Option (List (List Bool))) :
    List Measurement :=
  List.insertionSort fluxGe
    ((((env.extract (combinedMask env p mask)).filter (fun o => sepKeep p o)).map
        (sepRow env (combinedMask env p mask) (env.wcs <|> env.headerWcs) (sepAper env p))).filter
      (fun m => decide (0 < m.flux) && decide (m.magerr < 1 / p.sn)))

/-- `get_objects_sep` (source lines 39-156): returns the measurement table
together with the final state of the sep process-global configuration, which
the call sets to the image pixel count at line 63. -/
def get_objects_sep (env : SepEnv) (p : SepParams) (mask : Option (List (List Bool)))
    (g : SepGlobals) : List Measurement × SepGlobals :=
  (sepTable env p mask, set_extract_pixstack (p.h * p.w) g)

/-- One row of the FITS_LDAC catalogue written by the SExtractor binary and
read back at source line 242 (field list from the `params` written at source
line 207). -/
structure SexRow where
  X_IMAGE : ℚ
  Y_IMAGE : ℚ
  MAG_APER : ℚ
  MAGERR_APER : ℚ
  FLUX_APER : ℚ
  FLUXERR_APER : ℚ
  ERRX2_IMAGE : ℚ
  ERRY2_IMAGE : ℚ
  A_IMAGE : ℚ
  B_IMAGE : ℚ
  THETA_IMAGE : ℚ
  FLUX_RADIUS : ℚ
  FWHM_IMAGE : ℚ
  BACKGROUND : ℚ
  FLAGS : ℕ
  IMAFLAGS_ISO : ℕ
deriving DecidableEq

/-- Collaborator bundle for `get_objects_sextractor`: the result of the
filesystem probe for the binary (source lines 159-165), the exit status of
the `os.system` invocation (line 239), the catalogue rows the binary
produced (line 242), plus `np.sqrt` and the WCS transform. -/
structure SexEnv where
  binname : Option String
  res : ℕ
  data : List SexRow
  sqrt : ℚ → ℚ
  wcs : Option (ℚ → ℚ → ℚ × ℚ)
  headerWcs : Option (ℚ → ℚ → ℚ × ℚ)

/-- Parameters of `get_objects_sextractor` (source line 158) that shape the
output table: image size, scalar aperture, edge margin, S/N cutoff. -/
structure SexParams where
  h : ℕ
  w : ℕ
  aper : ℚ
  edge : ℚ
  sn : ℚ

/-- The scalar-aperture row filter of `get_objects_sextractor` (source
lines 244-252): strictly inside the edge margin, `MAGERR_APER < 1/sn`,
`FLUX_APER > 0`.  (The vector-aperture branch applies the same two cuts
through `np.all` across apertures.) -/
def sexKeep (p : SexParams) (r : SexRow) : Bool :=
  decide (p.edge < r.X_IMAGE) && decide (r.X_IMAGE < (p.w : ℚ) - p.edge) &&
  decide (p.edge < r.Y_IMAGE) && decide (r.Y_IMAGE < (p.h : ℚ) - p.edge) &&
  decide (r.MAGERR_APER < 1 / p.sn) && decide (0 < r.FLUX_APER)

/-- The locally-added contamination bit of `get_objects_sextractor`
(source line 264): `data['FLAGS'][data['IMAFLAGS_ISO'] > 0] |= 256`. -/
def sexFlags (r : SexRow) : ℕ :=
  if 0 < r.IMAFLAGS_ISO then r.FLAGS ||| 256 else r.FLAGS

/-- One output row of `get_objects_sextractor` (source lines 266-274):
1-based SExtractor coordinates shifted to 0-based, collaborator square
roots of the variance terms, the merged flag column, and the WCS
conversion (zero-filled when no transform is available). -/
def sexRowToMeas (env : SexEnv) (resolved : Option (ℚ → ℚ → ℚ × ℚ)) (r : SexRow) :
    Measurement :=
  let rd := match resolved with
    | some f => f r.X_IMAGE r.Y_IMAGE
    | none => ((0 : ℚ), (0 : ℚ))
  { x := r.X_IMAGE - 1, y := r.Y_IMAGE - 1,
    xerr := env.sqrt r.ERRX2_IMAGE, yerr := env.sqrt r.ERRY2_IMAGE,
    flux := r.FLUX_APER, fluxerr := r.FLUXERR_APER,
    mag := r.MAG_APER, magerr := r.MAGERR_APER,
    flags := sexFlags r,
    ra := rd.1, dec := rd.2,
    bg := r.BACKGROUND, fwhm := r.FWHM_IMAGE,
    a := r.A_IMAGE, b := r.B_IMAGE, theta := r.THETA_IMAGE }

/-- `get_objects_sextractor` (source lines 158-303), scalar-aperture path:
`none` when the binary is not found (lines 167-170) or the invocation fails
(lines 288-290); otherwise the filtered, flag-merged, descending-flux-sorted
measurement table (lines 244-278). -/
def get_objects_sextractor (env : SexEnv) (p : SexParams) : Option (List Measurement) :=
  match env.binname with
  | none => none
  | some _ =>
    if env.res = 0 then
      some (List.insertionSort fluxGe
        (((env.data.filter (fun r => sexKeep p r)).map
          (sexRowToMeas env (env.wcs <|> env.headerWcs)))))
    else none

/-- Local-variable name used by `get_background`: `back` (source line 432). -/
def nameBack : String := "back"

/-- Local-variable name bound by `get_background`: `backrms` (source
line 432). -/
def nameBackrms : String := "backrms"

/-- Local-variable name `get_background` tries to return: `back_rms`
(source line 438); no assignment in the function body binds it. -/
def nameBackRmsTypo : String := "back_rms"

/-- Prefix of the failure a Python lookup of an unbound local raises. -/
def nameErrorPre : String := "NameError: "

/-- Suffix of the failure a Python lookup of an unbound local raises. -/
def nameErrorPost : String := " is not defined"

/-- The failure a Python lookup of an unbound local raises. -/
def nameErrorMsg : String := "NameError: back_rms is not defined"

/-- Method string selecting the sep backend in `get_background`
(source line 429). -/
def methodSep : String := "sep"

/-- Python local-variable lookup: the bound value, or a NameError for an
unbound name. -/
def pyLookup (locals : List (String × α)) (n : String) : Except String α :=
  match locals.find? (fun q => q.1 == n) with
  | some q => Except.ok q.2
  | none => Except.error (nameErrorPre ++ n ++ nameErrorPost)

/-- Collaborator bundle for `get_background`: the background and rms maps
produced by `sep.Background` (source lines 430-432) and by
`photutils.Background2D` (source lines 434-435). -/
structure BgEnv where
  sepBack : List (List ℚ)
  sepRms : List (List ℚ)
  phBack : List (List ℚ)
  phRms : List (List ℚ)

/-- `get_background` (source lines 428-440).  The function binds locals
`back` and `backrms` (line 432 or 435) and then, when `get_rms` is set,
returns `back, back_rms` (line 438) - a lookup of a name that was never
bound, modelled by an explicit local environment. -/
def get_background (env : BgEnv) (method : String) (get_rms : Bool) :
    Except String (List (List ℚ) ⊕ List (List ℚ) × List (List ℚ)) :=
  let back := if method == methodSep then env.sepBack else env.phBack
  let backrms := if method == methodSep then env.sepRms else env.phRms
  let locals := [(nameBack, back), (nameBackrms, backrms)]
  if get_rms then
    match pyLookup locals nameBack, pyLookup locals nameBackRmsTypo with
    | Except.ok bk, Except.ok rm => Except.ok (Sum.inr (bk, rm))
    | Except.error e, _ => Except.error e
    | _, Except.error e => Except.error e
  else
    match pyLookup locals nameBack with
    | Except.ok bk => Except.ok (Sum.inl bk)
    | Except.error e => Except.error e

/-- Pointwise lifting of a binary operation to NaN-able values (numpy
arithmetic on arrays that may hold non-finite entries). -/
def optMap2 (f : α → β → γ) : Option α → Option β → Option γ
  | some a, some b => some (f a b)
  | _, _ => none

/-- `np.mean` of a list of rationals (source line 338). -/
def listMean (l : List ℚ) : ℚ := l.sum / (l.length : ℚ)

/-- `make_series` (source lines 305-322) evaluated at one point: the list of
monomial basis values `[mul] ++ [mul * x^(i-j) * y^j for 1 ≤ i ≤ order,
0 ≤ j ≤ i]` (the leading constant only when `zero` is set; the `sum=True`
variant is not used by `match`). -/
def make_series (mul x y : ℚ) (order : ℕ) (zero : Bool) : List ℚ :=
  (if zero then [mul] else []) ++
    (List.range' 1 order).flatMap fun i =>
      (List.range (i + 1)).map fun j => mul * x ^ (i - j) * y ^ j

/-- Dot product of two coefficient lists (`np.sum(X*C, axis=1)` for one
row); truncates at the shorter list exactly as the slice
`C.params[0:X.shape[1]]` does. -/
def dotProd (v w : List ℚ) : ℚ := (List.zipWith (fun a b => a * b) v w).sum

/-- Boolean-mask selection `arr[idx]` of numpy fancy indexing. -/
def maskSelect (mask : List Bool) (xs : List α) : List α :=
  (mask.zip xs).filterMap fun q => if q.1 then some q.2 else none

/-- `np.sum(idx)` for a boolean mask (source lines 374, 376). -/
def countTrue (l : List Bool) : ℕ := l.count true

/-- The exported zero-point surface `zero_fn` (source lines 400-409): the
spatial basis at the centred position dotted with the positional
coefficients only, `C.params[0:X.shape[1]]`. -/
def zero_fn (C : List ℚ) (spatial_order : ℕ) (x0 y0 xx yy : ℚ) : ℚ :=
  let X := make_series 1 (xx - x0) (yy - y0) spatial_order true
  dotProd X (C.take X.length)

/-- State of the robust-refinement loop of `match` (source lines 362-394):
the fit target `zero`, its uncertainty, the weights, the design-matrix rows,
the base inclusion mask `idx0`, the rejection `threshold`, and the external
regression solver (statsmodels RLM / WLS, already specialised by the
`robust` switch). -/
structure FitCtx where
  solver : List ℚ → List (List ℚ) → List ℚ → List ℚ
  threshold : ℚ
  zero : List (Option ℚ)
  zero_err : List (Option ℚ)
  weights : List (Option ℚ)
  X : List (List ℚ)
  idx0 : List Bool

/-- One regression call over the active subset (source lines 379-382): the
solver sees the `idx`-selected target, design rows and weights.  Selected
entries are finite whenever `idx` refines `idx0`, so the `getD 0` default is
never exercised on a selected row. -/
def fitOnce (c : FitCtx) (idx : List Bool) : List ℚ :=
  c.solver (maskSelect idx (c.zero.map (fun z => z.getD 0)))
    (maskSelect idx c.X)
    (maskSelect idx (c.weights.map (fun z => z.getD 0)))

/-- `zero_model = np.sum(X*C.params, axis=1)` over all rows
(source line 384). -/
def zeroModelOf (c : FitCtx) (C : List ℚ) : List ℚ :=
  c.X.map fun row => dotProd row C

/-- The residual test `np.abs((zero - zero_model)/zero_err) < threshold`
(source line 388) at one row; false on non-finite entries, exactly as a NaN
comparison is false (such rows are outside `idx0` and never consulted). -/
def residOK (threshold : ℚ) (z e : Option ℚ) (m : ℚ) : Bool :=
  match z, e with
  | some zv, some ev => decide (|(zv - m) / ev| < threshold)
  | _, _ => false

/-- Elementwise recomputation `idx[idx0] &= test[idx0]` after
`idx = idx0.copy()` (source lines 386-388), walking the four parallel
arrays. -/
def recomputeMaskAux (threshold : ℚ) :
    List Bool → List (Option ℚ) → List (Option ℚ) → List ℚ → List Bool
  | i0 :: idx0, z :: zs, e :: es, mm :: ms =>
      (i0 && residOK threshold z e mm) :: recomputeMaskAux threshold idx0 zs es ms
  | _, _, _, _ => []

/-- The active mask recomputed from `idx0` against the current model
(source lines 386-388): when `threshold` is falsy the mask is plain `idx0`
(no rejection), otherwise `idx0` AND the residual test. -/
def recomputeMask (c : FitCtx) (model : List ℚ) : List Bool :=
  if c.threshold = 0 then c.idx0
  else recomputeMaskAux c.threshold c.idx0 c.zero c.zero_err model

/-- One full loop body seen as a mask transformer: fit on the given active
mask, then recompute the mask from `idx0` against the new model. -/
def stepMask (c : FitCtx) (idx : List Bool) : List Bool :=
  recomputeMask c (zeroModelOf c (fitOnce c idx))

/-- The `for iter in range(5)` loop of `match` (source lines 373-394): fail
with `None` when fewer than 3 points remain at the top of an iteration
(lines 374-377), fit, recompute the active mask, and break after the first
iteration when `threshold` is falsy (lines 393-394).  Returns the last
coefficients, model and mask.  The fuel argument counts the remaining
iterations, so the top-level call uses 5. -/
def matchGo (c : FitCtx) : ℕ → List Bool → Option (List ℚ × List ℚ × List Bool)
  | 0, _ => none
  | fuel + 1, idx =>
    if countTrue idx < 3 then none
    else
      let C := fitOnce c idx
      let zero_model := zeroModelOf c C
      let idx1 := recomputeMask c zero_model
      if c.threshold = 0 ∨ fuel = 0 then some (C, zero_model, idx1)
      else matchGo c fuel idx1

/-- The robust-refinement loop of `match` started on the base mask `idx0`
with the source's iteration budget of 5 (source line 373). -/
def matchCore (c : FitCtx) : Option (List ℚ × List ℚ × List Bool) :=
  matchGo c 5 c.idx0

/-- The sequence of active masks the loop would visit: `maskIterFrom c m k`
is the mask at the start of iteration `k` when iteration 0 starts at `m`. -/
def maskIterFrom (c : FitCtx) (m : List Bool) : ℕ → List Bool
  | 0 => m
  | k + 1 => stepMask c (maskIterFrom c m k)

/-- Collaborator bundle for `match`: the HTM cross-match index
(source line 327), the statsmodels robust and weighted solvers
(lines 380-382), and `np.hypot` (line 364). -/
structure MatchEnv where
  htmMatch : List ℚ → List ℚ → List ℚ → List ℚ → ℚ → List ℕ × List ℕ × List ℚ
  rlm : List ℚ → List (List ℚ) → List ℚ
  wls : List ℚ → List (List ℚ) → List ℚ → List ℚ
  hypot : ℚ → ℚ → ℚ

/-- Everything `match` computes before entering the fit loop
(source lines 327-371). -/
structure MatchPrep where
  oidx : List ℕ
  cidx : List ℕ
  dist : List ℚ
  omag : List (Option ℚ)
  omag_err : List (Option ℚ)
  oflags : List ℕ
  cmag : List (Option ℚ)
  cmag_err : List (Option ℚ)
  ccolor : List (Option ℚ)
  x0 : ℚ
  y0 : ℚ
  xs : List ℚ
  ys : List ℚ
  X : List (List ℚ)
  zero : List (Option ℚ)
  zero_err : List (Option ℚ)
  weights : List (Option ℚ)
  idx0 : List Bool

/-- The pre-loop phase of `match` (source lines 327-371): cross-match,
per-pair selections (masked catalogue entries filled with NaN become
`none`), centred positions, design matrix (with the appended colour column
when a catalogue colour is supplied, lines 354-356), fit target
`zero = cmag - omag`, its uncertainty `hypot(omag_err, cmag_err)`, inverse
variance weights, and the base mask `idx0` of finite, unflagged pairs
(lines 367-369). -/
def matchPrep (env : MatchEnv) (obj_ra obj_dec : List ℚ) (obj_mag obj_magerr : List (Option ℚ))
    (obj_flags : List ℕ) (cat_ra cat_dec : List ℚ) (cat_mag : List (Option ℚ))
    (cat_magerr cat_color : Option (List (Option ℚ))) (sr : ℚ)
    (obj_x obj_y : Option (List ℚ)) (spatial_order : ℕ) : MatchPrep :=
  let res := env.htmMatch obj_ra obj_dec cat_ra cat_dec sr
  let oidx := res.1
  let cidx := res.2.1
  let dist := res.2.2
  let omag := oidx.map fun i => obj_mag.getD i none
  let omag_err := oidx.map fun i => obj_magerr.getD i none
  let oflags := oidx.map fun i => obj_flags.getD i 0
  let cmag := cidx.map fun i => cat_mag.getD i none
  let cmag_err := match cat_magerr with
    | some arr => cidx.map fun i => arr.getD i none
    | none => cmag.map fun _ => some 0
  let xy : ℚ × ℚ × List ℚ × List ℚ := match obj_x, obj_y with
    | some axs, some ays =>
      let xsel := oidx.map fun i => axs.getD i 0
      let ysel := oidx.map fun i => ays.getD i 0
      let mx := listMean xsel
      let my := listMean ysel
      (mx, my, xsel.map fun v => v - mx, ysel.map fun v => v - my)
    | _, _ => (0, 0, omag.map fun _ => (0 : ℚ), omag.map fun _ => (0 : ℚ))
  let ccolor := match cat_color with
    | some arr => cidx.map fun i => arr.getD i none
    | none => cmag.map fun _ => some 0
  let Xbase := (xy.2.2.1.zip xy.2.2.2).map fun q => make_series 1 q.1 q.2 spatial_order true
  let X := if cat_color.isSome then (Xbase.zip ccolor).map fun q => q.1 ++ [q.2.getD 0]
    else Xbase
  let zero := (cmag.zip omag).map fun q => optMap2 (fun cm om => cm - om) q.1 q.2
  let zero_err := (omag_err.zip cmag_err).map fun q => optMap2 env.hypot q.1 q.2
  let weights := zero_err.map fun e => e.map fun v => 1 / v ^ 2
  let idx0 := (List.range omag.length).map fun i =>
    (omag.getD i none).isSome && (omag_err.getD i none).isSome &&
    (cmag.getD i none).isSome && (cmag_err.getD i none).isSome &&
    (oflags.getD i 1 == 0) &&
    (!cat_color.isSome || (ccolor.getD i none).isSome)
  ⟨oidx, cidx, dist, omag, omag_err, oflags, cmag, cmag_err, ccolor,
    xy.1, xy.2.1, xy.2.2.1, xy.2.2.2, X, zero, zero_err, weights, idx0⟩

/-- The fit context `match` hands to its refinement loop: the solver is
RLM when `robust` is set, else weighted least squares (source
lines 379-382). -/
def matchCtx (env : MatchEnv) (p : MatchPrep) (threshold : ℚ) (robust : Bool) : FitCtx :=
  { solver := if robust then (fun zs Xs _ => env.rlm zs Xs) else env.wls,
    threshold := threshold,
    zero := p.zero, zero_err := p.zero_err, weights := p.weights,
    X := p.X, idx0 := p.idx0 }

/-- The result bundle `match` returns (source lines 419-426). -/
structure MatchResult where
  oidx : List ℕ
  cidx : List ℕ
  dist : List ℚ
  omag : List (Option ℚ)
  omag_err : List (Option ℚ)
  cmag : List (Option ℚ)
  cmag_err : List (Option ℚ)
  color : List (Option ℚ)
  color_term : Option ℚ
  zero : List (Option ℚ)
  zero_err : List (Option ℚ)
  zero_model : List ℚ
  zero_fn : ℚ → ℚ → ℚ
  obj_zero : List ℚ
  idx : List Bool
  idx0 : List Bool

/-- `match` (source lines 324-426): cross-match, robust zero-point fit, and
the exported model bundle; `none` exactly when the refinement loop fails.
The bundle's `obj_zero` evaluates `zero_fn` at every detection position, or
at the centroid when no positions were supplied (lines 400-409, 425). -/
def match_ (env : MatchEnv) (obj_ra obj_dec : List ℚ) (obj_mag obj_magerr : List (Option ℚ))
    (obj_flags : List ℕ) (cat_ra cat_dec : List ℚ) (cat_mag : List (Option ℚ))
    (cat_magerr cat_color : Option (List (Option ℚ))) (sr : ℚ)
    (obj_x obj_y : Option (List ℚ)) (spatial_order : ℕ) (threshold : ℚ) (robust : Bool) :
    Option MatchResult :=
  let p := matchPrep env obj_ra obj_dec obj_mag obj_magerr obj_flags cat_ra cat_dec cat_mag
    cat_magerr cat_color sr obj_x obj_y spatial_order
  match matchCore (matchCtx env p threshold robust) with
  | none => none
  | some r =>
    let C := r.1
    some
      { oidx := p.oidx, cidx := p.cidx, dist := p.dist,
        omag := p.omag, omag_err := p.omag_err,
        cmag := p.cmag, cmag_err := p.cmag_err,
        color := p.ccolor,
        color_term := if cat_color.isSome then
            some (C.getD (make_series 1 1 1 spatial_order true).length 0)
          else none,
        zero := p.zero, zero_err := p.zero_err,
        zero_model := r.2.1,
        zero_fn := zero_fn C spatial_order p.x0 p.y0,
        obj_zero := match obj_x, obj_y with
          | some axs, some ays =>
            (axs.zip ays).map fun q => zero_fn C spatial_order p.x0 p.y0 q.1 q.2
          | _, _ => p.omag.map fun _ => zero_fn C spatial_order p.x0 p.y0 p.x0 p.y0,
        idx := r.2.2, idx0 := p.idx0 }

/-- Pointwise refinement of boolean masks: every position set in `m1` is set
in `m2`. -/
def maskSub (m1 m2 : List Bool) : Prop :=
  ∀ i : ℕ, m1.getD i false = true → m2.getD i false = true

/-- Weighted least squares specialised to a one-column constant design: the
closed form of the weighted/robust linear solver collaborator on a
degree-zero spatial basis is the weighted mean of the targets. -/
def wlsConst : List ℚ → List (List ℚ) → List ℚ → List ℚ :=
  fun zs _ ws => [dotProd zs ws / ws.sum]

/-- Concrete large-object mask used in the contamination-flag scenario: a
5x5 grid whose only set pixel is at row 2, column 2. -/
def g22 : List (List Bool) :=
  [List.replicate 5 false, List.replicate 5 false,
    [false, false, true, false, false],
    List.replicate 5 false, List.replicate 5 false]

/-- One concrete raw detection at pixel (2, 2) with clean native flag. -/
def oEx : SepObj :=
  { x := 2, y := 2, errx2 := 1, erry2 := 1, a := 1, b := 1, theta := 0,
    flag := 0, tnpix := 5, npix := 5 }

/-- Concrete collaborator bundle: a single zero-flag detection, unit-flux
photometry with zero native flag, and simple stand-ins for the numeric
collaborators.  The first-pass large-object mask is `g22`. -/
def envEx : SepEnv :=
  { log10 := fun _ => 1, ln := fun _ => 1, sqrt := fun q => q, pi := 3,
    firstPassLargeMask := fun _ => g22,
    extract := fun _ => [oEx],
    phot := fun _ _ _ => (4, 1, 0),
    bgphot := fun _ _ _ => 2,
    fluxRadius := fun _ _ => 1,
    medianFwhm := 2,
    wcs := none, headerWcs := none }

/-- Concrete parameters: 5x5 image, aperture 3, S/N cutoff 1, no masking. -/
def pEx : SepParams :=
  { h := 5, w := 5, thresh := 4, aper := 3, r0 := 1/2, gain := 1, edge := 0,
    minnthresh := 2, minarea := 5, npix_large := 100, sn := 1,
    use_fwhm := false, use_mask_large := false, subtract_bg := true }

/-- The same parameters with two-pass large-object masking enabled. -/
def pEx8 : SepParams :=
  { pEx with use_mask_large := true }

/-- Concrete SExtractor catalogue row inside all margins, with a set
`IMAFLAGS_ISO`. -/
def rSexW : SexRow :=
  { X_IMAGE := 2, Y_IMAGE := 2, MAG_APER := 1, MAGERR_APER := 1/2,
    FLUX_APER := 4, FLUXERR_APER := 1, ERRX2_IMAGE := 1, ERRY2_IMAGE := 1,
    A_IMAGE := 1, B_IMAGE := 1, THETA_IMAGE := 0, FLUX_RADIUS := 1,
    FWHM_IMAGE := 2, BACKGROUND := 0, FLAGS := 0, IMAFLAGS_ISO := 1 }

/-- Name of a SExtractor binary for the concrete scenario. -/
def sexBin : String := "sex"

/-- Concrete SExtractor collaborator bundle: binary found, run succeeded,
one catalogue row. -/
def envSexW : SexEnv :=
  { binname := some sexBin, res := 0, data := [rSexW],
    sqrt := fun q => q, wcs := none, headerWcs := none }

/-- Concrete SExtractor parameters: 5x5 image, aperture 3, S/N cutoff 1. -/
def pSexW : SexParams :=
  { h := 5, w := 5, aper := 3, edge := 0, sn := 1 }

/-- Concrete fit context with an empty pair list (zero cross-matches). -/
def cW2 : FitCtx :=
  { solver := fun _ _ _ => [], threshold := 5,
    zero := [], zero_err := [], weights := [], X := [], idx0 := [] }

/-- Concrete fit context exercising the weighted-mean solver: three unit
weight points at 0, a weight-4 point at -6, and a unit point at 9/2, with
rejection threshold 5.  The first rejection pass drops the last two points;
refitting on the remaining zeros re-admits the point at 9/2. -/
def cC3 : FitCtx :=
  { solver := wlsConst, threshold := 5,
    zero := [some 0, some 0, some 0, some (-6), some (9/2)],
    zero_err := [some 1, some 1, some 1, some (1/2), some 1],
    weights := [some 1, some 1, some 1, some 4, some 1],
    X := [[1], [1], [1], [1], [1]],
    idx0 := [true, true, true, true, true] }

/-- Concrete fit context with `threshold = 0` and three valid points. -/
def cW4 : FitCtx :=
  { solver := fun zs _ _ => [zs.sum], threshold := 0,
    zero := [some 1, some 2, some 3], zero_err := [some 1, some 1, some 1],
    weights := [some 1, some 1, some 1], X := [[1], [1], [1]],
    idx0 := [true, true, true] }

/-- The single measurement row produced by the concrete `get_objects_sep`
scenario built from `envEx` and `pEx` (or `pEx8`). -/
def mEx : Measurement :=
  { x := 2, y := 2, xerr := 1, yerr := 1, flux := 4, fluxerr := 1,
    mag := -5/2, magerr := 5/8, flags := 0, ra := 0, dec := 0,
    bg := 2/27, fwhm := 2, a := 1, b := 1, theta := 0 }

/-! ## Helper lemmas -/

theorem mem_sepTable {env : SepEnv} {p : SepParams} {mask : Option (List (List Bool))}
    {m : Measurement} :
    m ∈ sepTable env p mask ↔
      (∃ o, o ∈ (env.extract (combinedMask env p mask)).filter (fun o => sepKeep p o) ∧
          sepRow env (combinedMask env p mask) (env.wcs <|> env.headerWcs) (sepAper env p) o
            = m) ∧
        (0 < m.flux ∧ m.magerr < 1 / p.sn) := by
  unfold sepTable
  rw [(List.perm_insertionSort fluxGe _).mem_iff, List.mem_filter, List.mem_map]
  simp [Bool.and_eq_true, decide_eq_true_eq]

theorem mem_sexTable {env : SexEnv} {p : SexParams} {tbl : List Measurement}
    {m : Measurement} (h : get_objects_sextractor env p = some tbl) (hm : m ∈ tbl) :
    ∃ r, r ∈ env.data ∧ sexKeep p r = true ∧
      sexRowToMeas env (env.wcs <|> env.headerWcs) r = m := by
  unfold get_objects_sextractor at h
  rcases hb : env.binname with _ | b
  · rw [hb] at h; exact absurd h (by simp)
  · rw [hb] at h
    by_cases hres : env.res = 0
    · rw [if_pos hres] at h
      have htbl : tbl = List.insertionSort fluxGe
          ((env.data.filter (fun r => sexKeep p r)).map
            (sexRowToMeas env (env.wcs <|> env.headerWcs))) := by
        exact (Option.some_injective _ h).symm
      rw [htbl, (List.perm_insertionSort fluxGe _).mem_iff, List.mem_map] at hm
      rcases hm with ⟨r, hr, hrm⟩
      rw [List.mem_filter] at hr
      exact ⟨r, hr.1, hr.2, hrm⟩
    · rw [if_neg hres] at h; exact absurd h (by simp)

/-! ## Claims C9 and C10: background estimation and global state -/

/-- C9: the claim states that `get_background(..., get_rms=True)` returns
the `(background, rms)` pair and never surfaces a failure.  In the code the
locals are bound as `back, backrms` (line 432) but the return statement
reads `back_rms` (line 438), a name no branch ever binds, so every
`get_rms=True` call raises a NameError instead of returning.  This theorem
evaluates the embedded function: for every collaborator bundle and method
string the `get_rms=True` branch yields the NameError, contradicting the
claim. -/
theorem claim_C9 (env : BgEnv) (method : String) :
    get_background env method true = Except.error nameErrorMsg := rfl

/-- C10 (amended): `get_objects_sep` never writes to its image or mask
arguments (all updates rebind locals to freshly built arrays), but it does
mutate process-global state: every call sets the sep extraction pixel stack
to the image pixel count `h * w` (source line 63), so independent calls
share and overwrite that global tunable. -/
theorem claim_C10 (env : SepEnv) (p : SepParams) (mask : Option (List (List Bool)))
    (g : SepGlobals) :
    (get_objects_sep env p mask g).2 = ⟨p.h * p.w⟩ := rfl

/-- C10 counterexample: a concrete call started with pixel-stack global 0
leaves the global changed (to 25), so the claim that `get_objects_sep`
mutates no global state shared between invocations is false. -/
theorem claim_C10_counterexample :
    (get_objects_sep envEx pEx none ⟨0⟩).2 ≠ ⟨0⟩ := by decide

theorem sepTable_pEx_eval : (get_objects_sep envEx pEx none ⟨0⟩).1 = [mEx] := by
  norm_num [get_objects_sep, sepTable, sepRow, sepKeep, sepAper, combinedMask, sepMaskSegm,
    envEx, pEx, oEx, mEx, npRound, round_eq, List.filter, List.insertionSort,
    List.orderedInsert, gridOr, gridZeros, Option.orElse]

theorem sepTable_pEx8_eval : (get_objects_sep envEx pEx8 none ⟨0⟩).1 = [mEx] := by
  norm_num [get_objects_sep, sepTable, sepRow, sepKeep, sepAper, combinedMask, sepMaskSegm,
    envEx, pEx8, pEx, oEx, mEx, npRound, round_eq, List.filter, List.insertionSort,
    List.orderedInsert, gridOr, gridZeros, Option.orElse]

theorem overlap_g22 : overlapsMask g22 2 2 3 = true := by
  rw [overlapsMask, List.any_eq_true]
  refine ⟨(2, [false, false, true, false, false]),
    by simp [g22, List.enum, List.enumFrom], ?_⟩
  rw [List.any_eq_true]
  refine ⟨(2, true), by simp [List.enum, List.enumFrom], ?_⟩
  norm_num

/-! ## Claims C1, C6, C7, C8: the extraction output tables -/

/-- C1: every row of the table returned by `get_objects_sep` and by
`get_objects_sextractor` has `flux > 0` and `magerr < 1/sn`; no measurement
violating either cut ever appears in the output (source lines 126 and
248-249 install exactly these two cuts before the tables are built). -/
theorem claim_C1 :
    (∀ (env : SepEnv) (p : SepParams) (mask : Option (List (List Bool))) (g : SepGlobals)
        (m : Measurement), m ∈ (get_objects_sep env p mask g).1 →
        0 < m.flux ∧ m.magerr < 1 / p.sn) ∧
      (∀ (env : SexEnv) (p : SexParams) (tbl : List Measurement) (m : Measurement),
        get_objects_sextractor env p = some tbl → m ∈ tbl →
        0 < m.flux ∧ m.magerr < 1 / p.sn) := by
  constructor
  · intro env p mask g m hm
    exact (mem_sepTable.mp hm).2
  · intro env p tbl m h hm
    rcases mem_sexTable h hm with ⟨r, _, hkeep, hrm⟩
    unfold sexKeep at hkeep
    simp only [Bool.and_eq_true, decide_eq_true_eq] at hkeep
    have hflux : m.flux = r.FLUX_APER := by rw [← hrm]; rfl
    have hmagerr : m.magerr = r.MAGERR_APER := by rw [← hrm]; rfl
    rw [hflux, hmagerr]
    exact ⟨hkeep.2, hkeep.1.2⟩

/-- C1 witness: the quality bounds hold on the single row of a concrete
`get_objects_sep` run. -/
theorem claim_C1_witness :
    0 < ((get_objects_sep envEx pEx none ⟨0⟩).1.headD default).flux ∧
      ((get_objects_sep envEx pEx none ⟨0⟩).1.headD default).magerr < 1 / pEx.sn :=
  claim_C1.1 envEx pEx none ⟨0⟩ _ (by rw [sepTable_pEx_eval]; simp)

/-- C6: every row of the `get_objects_sep` table satisfies the exact
flux-to-magnitude relations `mag = -2.5*log10(flux)` and
`magerr = 2.5/ln(10) * fluxerr/flux`, with `flux > 0` guaranteed by the
quality cut (source lines 114-118 assign the masked conversions and
line 126 keeps exactly the positive-flux rows). -/
theorem claim_C6 (env : SepEnv) (p : SepParams) (mask : Option (List (List Bool)))
    (g : SepGlobals) (m : Measurement) (hm : m ∈ (get_objects_sep env p mask g).1) :
    0 < m.flux ∧ m.mag = -2.5 * env.log10 m.flux ∧
      m.magerr = 2.5 / env.ln 10 * m.fluxerr / m.flux := by
  rcases mem_sepTable.mp hm with ⟨⟨o, _, hrow⟩, hflux, _⟩
  refine ⟨hflux, ?_, ?_⟩
  · rw [← hrow] at hflux ⊢
    show (if 0 < (env.phot (combinedMask env p mask) o.x o.y).1 then
        -2.5 * env.log10 (env.phot (combinedMask env p mask) o.x o.y).1 else 0) =
      -2.5 * env.log10 (env.phot (combinedMask env p mask) o.x o.y).1
    exact if_pos hflux
  · rw [← hrow] at hflux ⊢
    show (if 0 < (env.phot (combinedMask env p mask) o.x o.y).1 then
        2.5 / env.ln 10 * (env.phot (combinedMask env p mask) o.x o.y).2.1 /
          (env.phot (combinedMask env p mask) o.x o.y).1 else 0) =
      2.5 / env.ln 10 * (env.phot (combinedMask env p mask) o.x o.y).2.1 /
        (env.phot (combinedMask env p mask) o.x o.y).1
    exact if_pos hflux

/-- C6 witness: the magnitude relations hold on the single row of a
concrete `get_objects_sep` run. -/
theorem claim_C6_witness :
    0 < ((get_objects_sep envEx pEx none ⟨0⟩).1.headD default).flux ∧
      ((get_objects_sep envEx pEx none ⟨0⟩).1.headD default).mag =
        -2.5 * envEx.log10 ((get_objects_sep envEx pEx none ⟨0⟩).1.headD default).flux ∧
      ((get_objects_sep envEx pEx none ⟨0⟩).1.headD default).magerr =
        2.5 / envEx.ln 10 * ((get_objects_sep envEx pEx none ⟨0⟩).1.headD default).fluxerr /
          ((get_objects_sep envEx pEx none ⟨0⟩).1.headD default).flux :=
  claim_C6 envEx pEx none ⟨0⟩ _ (by rw [sepTable_pEx_eval]; simp)

/-- C7: both extraction tables are sorted by non-increasing flux
(`obj.sort('flux', reverse=True)` at source lines 154 and 278): each
element's flux is at least every later element's flux. -/
theorem claim_C7 :
    (∀ (env : SepEnv) (p : SepParams) (mask : Option (List (List Bool))) (g : SepGlobals),
        List.Sorted fluxGe (get_objects_sep env p mask g).1) ∧
      (∀ (env : SexEnv) (p : SexParams) (tbl : List Measurement),
        get_objects_sextractor env p = some tbl → List.Sorted fluxGe tbl) := by
  constructor
  · intro env p mask g
    exact List.sorted_insertionSort fluxGe _
  · intro env p tbl h
    unfold get_objects_sextractor at h
    rcases hb : env.binname with _ | b
    · rw [hb] at h; exact absurd h (by simp)
    · rw [hb] at h
      by_cases hres : env.res = 0
      · rw [if_pos hres] at h
        rw [← Option.some_injective _ h]
        exact List.sorted_insertionSort fluxGe _
      · rw [if_neg hres] at h; exact absurd h (by simp)

/-- C7 witness: sortedness of the table of a concrete successful
`get_objects_sextractor` run. -/
theorem claim_C7_witness :
    List.Sorted fluxGe ((get_objects_sextractor envSexW pSexW).getD []) :=
  claim_C7.2 envSexW pSexW _ rfl

/-- C8 (amended): `get_objects_sep` adds no contamination flag bit of its
own - its `flags` column is exactly the bitwise OR of the detection-pass
native flag and the aperture-photometry native flag (source lines 123,
145), so when every collaborator flag is zero every output row carries
`flags = 0` even under two-pass large-object masking.  The locally-added
contamination bit exists only in `get_objects_sextractor`, which ORs bit
256 into `FLAGS` exactly on the rows whose `IMAFLAGS_ISO` (input-mask
overlap) is positive (source line 264). -/
theorem claim_C8 :
    (∀ (env : SepEnv) (p : SepParams) (mask : Option (List (List Bool))) (g : SepGlobals),
        (∀ grid x y, (env.phot grid x y).2.2 = 0) →
        (∀ grid o, o ∈ env.extract grid → o.flag = 0) →
        ∀ m ∈ (get_objects_sep env p mask g).1, m.flags = 0) ∧
      (∀ r : SexRow, 0 < r.IMAFLAGS_ISO → sexFlags r &&& 256 = 256) := by
  constructor
  · intro env p mask g hphot hextr m hm
    rcases mem_sepTable.mp hm with ⟨⟨o, ho, hrow⟩, _, _⟩
    rw [List.mem_filter] at ho
    have hflag : o.flag = 0 := hextr _ _ ho.1
    have hp : (env.phot (combinedMask env p mask) o.x o.y).2.2 = 0 := hphot _ _ _
    rw [← hrow]
    show o.flag ||| ((env.phot (combinedMask env p mask) o.x o.y).2.2 ||| o.flag) = 0
    rw [hflag, hp]
    rfl
  · intro r hr
    unfold sexFlags
    rw [if_pos hr]
    apply Nat.eq_of_testBit_eq
    intro i
    rw [Nat.testBit_land, Nat.testBit_lor]
    cases Nat.testBit r.FLAGS i <;> cases Nat.testBit 256 i <;> rfl

/-- C8 witness: the concrete SExtractor row with positive `IMAFLAGS_ISO`
carries bit 256 after the merge. -/
theorem claim_C8_witness : sexFlags rSexW &&& 256 = 256 :=
  claim_C8.2 rSexW (by decide)

/-- C8 counterexample: a concrete `get_objects_sep` run with two-pass
large-object masking enabled whose single measurement sits at (2, 2) with
aperture 3 overlapping the set pixel of the dilated mask `g22`, yet the
output `flags` value is 0 - no locally-added contamination bit is set, so
the claim is false as stated for `get_objects_sep`. -/
theorem claim_C8_counterexample :
    pEx8.use_mask_large = true ∧
      sepMaskSegm envEx pEx8 (gridZeros 5 5) = g22 ∧
      overlapsMask g22 2 2 pEx8.aper = true ∧
      (get_objects_sep envEx pEx8 none ⟨0⟩).1.map Measurement.x = [2] ∧
      (get_objects_sep envEx pEx8 none ⟨0⟩).1.map Measurement.flags = [0] := by
  refine ⟨rfl, rfl, ?_, ?_, ?_⟩
  · show overlapsMask g22 2 2 3 = true
    exact overlap_g22
  · rw [sepTable_pEx8_eval]; rfl
  · rw [sepTable_pEx8_eval]; rfl

/-! ## Helper lemmas for the robust-refinement loop -/

theorem countTrue_cons (b : Bool) (l : List Bool) :
    countTrue (b :: l) = countTrue l + (if b then 1 else 0) := by
  cases b <;> simp [countTrue, List.count_cons]

theorem matchCtx_idx0 (env : MatchEnv) (p : MatchPrep) (thr : ℚ) (rb : Bool) :
    (matchCtx env p thr rb).idx0 = p.idx0 := rfl

theorem matchCore_small (c : FitCtx) (h : countTrue c.idx0 < 3) : matchCore c = none := by
  show matchGo c (4 + 1) c.idx0 = none
  simp only [matchGo]
  exact if_pos h

theorem maskIterFrom_shift (c : FitCtx) (m : List Bool) :
    ∀ k, maskIterFrom c (stepMask c m) k = maskIterFrom c m (k + 1)
  | 0 => rfl
  | k + 1 => by
    show stepMask c (maskIterFrom c (stepMask c m) k) = stepMask c (maskIterFrom c m (k + 1))
    rw [maskIterFrom_shift c m k]

theorem matchGo_none_small (c : FitCtx) :
    ∀ fuel m, matchGo c (fuel + 1) m = none →
      ∃ k, k ≤ fuel ∧ countTrue (maskIterFrom c m k) < 3 := by
  intro fuel
  induction fuel with
  | zero =>
    intro m h
    by_cases hc : countTrue m < 3
    · exact ⟨0, le_refl 0, hc⟩
    · simp only [matchGo, if_neg hc] at h
      simp at h
  | succ n ih =>
    intro m h
    by_cases hc : countTrue m < 3
    · exact ⟨0, Nat.zero_le _, hc⟩
    · simp only [matchGo, if_neg hc] at h
      by_cases ht : c.threshold = 0 ∨ n + 1 = 0
      · rw [if_pos ht] at h; simp at h
      · rw [if_neg ht] at h
        rcases ih _ h with ⟨k, hk, hsmall⟩
        refine ⟨k + 1, Nat.succ_le_succ hk, ?_⟩
        rw [← maskIterFrom_shift]
        exact hsmall

theorem matchGo_small_none (c : FitCtx) :
    ∀ fuel m k, k ≤ fuel → countTrue (maskIterFrom c m k) < 3 →
      (c.threshold ≠ 0 ∨ k = 0) → matchGo c (fuel + 1) m = none := by
  intro fuel
  induction fuel with
  | zero =>
    intro m k hk hsmall _
    have hk0 : k = 0 := Nat.le_zero.mp hk
    subst hk0
    simp only [matchGo]
    exact if_pos hsmall
  | succ n ih =>
    intro m k hk hsmall hside
    by_cases hc : countTrue m < 3
    · simp only [matchGo]
      exact if_pos hc
    · rcases k with _ | k2
      · exact absurd hsmall hc
      · have hthr : c.threshold ≠ 0 := by
          rcases hside with h | h
          · exact h
          · exact absurd h (Nat.succ_ne_zero k2)
        simp only [matchGo, if_neg hc]
        rw [if_neg (by simp [hthr])]
        rw [← maskIterFrom_shift] at hsmall
        exact ih _ k2 (Nat.succ_le_succ_iff.mp hk) hsmall (Or.inl hthr)

theorem matchGo_some_of_big (c : FitCtx) :
    ∀ fuel m, (∀ k, k ≤ fuel → 3 ≤ countTrue (maskIterFrom c m k)) →
      (matchGo c (fuel + 1) m).isSome = true := by
  intro fuel
  induction fuel with
  | zero =>
    intro m hbig
    have h0 : ¬ countTrue m < 3 := Nat.not_lt.mpr (hbig 0 (le_refl 0))
    simp only [matchGo, if_neg h0]
    simp
  | succ n ih =>
    intro m hbig
    have h0 : ¬ countTrue m < 3 := Nat.not_lt.mpr (hbig 0 (Nat.zero_le _))
    simp only [matchGo, if_neg h0]
    by_cases ht : c.threshold = 0 ∨ n + 1 = 0
    · rw [if_pos ht]; rfl
    · rw [if_neg ht]
      apply ih
      intro k hk
      show 3 ≤ countTrue (maskIterFrom c (stepMask c m) k)
      rw [maskIterFrom_shift]
      exact hbig (k + 1) (Nat.succ_le_succ hk)

theorem matchGo_thrZero (c : FitCtx) (h0 : c.threshold = 0) (fuel : ℕ) (m : List Bool)
    (t : List ℚ × List ℚ × List Bool) (h : matchGo c (fuel + 1) m = some t) :
    t.2.2 = c.idx0 := by
  by_cases hc : countTrue m < 3
  · simp only [matchGo, if_pos hc] at h
    exact absurd h (by simp)
  · simp only [matchGo, if_neg hc,
      if_pos (Or.inl h0 : c.threshold = 0 ∨ fuel = 0)] at h
    rw [← Option.some_injective _ h]
    show recomputeMask c _ = c.idx0
    rw [recomputeMask, if_pos h0]

theorem recomputeMaskAux_sub (threshold : ℚ) :
    ∀ (idx0 : List Bool) (zs es : List (Option ℚ)) (ms : List ℚ) (i : ℕ),
      (recomputeMaskAux threshold idx0 zs es ms).getD i false = true →
      idx0.getD i false = true := by
  intro idx0
  induction idx0 with
  | nil =>
    intro zs es ms i h
    simp [recomputeMaskAux] at h
  | cons i0 rest ih =>
    intro zs es ms i h
    rcases zs with _ | ⟨z, zs⟩
    · simp [recomputeMaskAux] at h
    rcases es with _ | ⟨e, es⟩
    · simp [recomputeMaskAux] at h
    rcases ms with _ | ⟨mm, ms⟩
    · simp [recomputeMaskAux] at h
    rw [recomputeMaskAux] at h
    rcases i with _ | j
    · rw [List.getD_cons_zero] at h ⊢
      simp only [Bool.and_eq_true] at h
      exact h.1
    · rw [List.getD_cons_succ] at h ⊢
      exact ih zs es ms j h

theorem countTrue_recomputeMaskAux_le (threshold : ℚ) :
    ∀ (idx0 : List Bool) (zs es : List (Option ℚ)) (ms : List ℚ),
      countTrue (recomputeMaskAux threshold idx0 zs es ms) ≤ countTrue idx0 := by
  intro idx0
  induction idx0 with
  | nil =>
    intro zs es ms
    simp [recomputeMaskAux]
  | cons i0 rest ih =>
    intro zs es ms
    rcases zs with _ | ⟨z, zs⟩
    · simp [recomputeMaskAux, countTrue]
    rcases es with _ | ⟨e, es⟩
    · simp [recomputeMaskAux, countTrue]
    rcases ms with _ | ⟨mm, ms⟩
    · simp [recomputeMaskAux, countTrue]
    rw [recomputeMaskAux, countTrue_cons, countTrue_cons]
    refine Nat.add_le_add (ih zs es ms) ?_
    cases i0 <;> cases residOK threshold z e mm <;> simp

theorem recomputeMask_sub (c : FitCtx) (model : List ℚ) :
    maskSub (recomputeMask c model) c.idx0 := by
  intro i h
  rw [recomputeMask] at h
  by_cases h0 : c.threshold = 0
  · rw [if_pos h0] at h; exact h
  · rw [if_neg h0] at h
    exact recomputeMaskAux_sub c.threshold c.idx0 c.zero c.zero_err model i h

theorem countTrue_recomputeMask_le (c : FitCtx) (model : List ℚ) :
    countTrue (recomputeMask c model) ≤ countTrue c.idx0 := by
  rw [recomputeMask]
  by_cases h0 : c.threshold = 0
  · rw [if_pos h0]
  · rw [if_neg h0]
    exact countTrue_recomputeMaskAux_le c.threshold c.idx0 c.zero c.zero_err model

theorem make_series_length (mul x y mul2 x2 y2 : ℚ) (order : ℕ) (z : Bool) :
    (make_series mul x y order z).length = (make_series mul2 x2 y2 order z).length := by
  cases z <;> simp [make_series, Function.comp_def]

theorem cC3_step_a :
    stepMask cC3 [true, true, true, true, true] = [true, true, true, false, false] := by
  norm_num [stepMask, recomputeMask, recomputeMaskAux, residOK, zeroModelOf, fitOnce,
    maskSelect, dotProd, wlsConst, cC3, List.zip, List.zipWith, List.filterMap, Option.getD,
    abs_lt, le_abs]

theorem cC3_step_b :
    stepMask cC3 [true, true, true, false, false] = [true, true, true, false, true] := by
  norm_num [stepMask, recomputeMask, recomputeMaskAux, residOK, zeroModelOf, fitOnce,
    maskSelect, dotProd, wlsConst, cC3, List.zip, List.zipWith, List.filterMap, Option.getD,
    abs_lt, le_abs]

theorem cC3_step_c :
    stepMask cC3 [true, true, true, false, true] = [true, true, true, false, true] := by
  norm_num [stepMask, recomputeMask, recomputeMaskAux, residOK, zeroModelOf, fitOnce,
    maskSelect, dotProd, wlsConst, cC3, List.zip, List.zipWith, List.filterMap, Option.getD,
    abs_lt, le_abs]

theorem cC3_mask1 : maskIterFrom cC3 cC3.idx0 1 = [true, true, true, false, false] := by
  show stepMask cC3 cC3.idx0 = _
  exact cC3_step_a

theorem cC3_mask2 : maskIterFrom cC3 cC3.idx0 2 = [true, true, true, false, true] := by
  show stepMask cC3 (maskIterFrom cC3 cC3.idx0 1) = _
  rw [cC3_mask1]
  exact cC3_step_b

/-! ## Claims C2, C3, C4, C5: the robust zero-point fit -/

/-- C2: the refinement loop of `match` fails with `None` exactly on a
too-small active mask: (a) fewer than 3 points in the base mask `idx0`
(covering the zero-cross-match case) force `None`; (b) fewer than 3 points
at the start of any executed iteration (any iteration when the threshold is
truthy, iteration 0 otherwise) force `None`; (c) `None` only arises from
such an iteration; (d) when every iteration start keeps at least 3 points
the call returns a model bundle; (e) at the `match` level, an empty
cross-match yields `None` (source lines 373-377). -/
theorem claim_C2 :
    (∀ c : FitCtx, countTrue c.idx0 < 3 → matchCore c = none) ∧
      (∀ (c : FitCtx) (k : ℕ), k ≤ 4 → countTrue (maskIterFrom c c.idx0 k) < 3 →
        (c.threshold ≠ 0 ∨ k = 0) → matchCore c = none) ∧
      (∀ c : FitCtx, matchCore c = none →
        ∃ k, k ≤ 4 ∧ countTrue (maskIterFrom c c.idx0 k) < 3) ∧
      (∀ c : FitCtx, (∀ k, k ≤ 4 → 3 ≤ countTrue (maskIterFrom c c.idx0 k)) →
        (matchCore c).isSome = true) ∧
      (∀ (env : MatchEnv) (ora odec : List ℚ) (omg ome : List (Option ℚ)) (ofl : List ℕ)
          (cra cdec : List ℚ) (cmg : List (Option ℚ)) (cme ccol : Option (List (Option ℚ)))
          (sr : ℚ) (ox oy : Option (List ℚ)) (so : ℕ) (thr : ℚ) (rb : Bool),
        env.htmMatch ora odec cra cdec sr = ([], [], []) →
        match_ env ora odec omg ome ofl cra cdec cmg cme ccol sr ox oy so thr rb = none) := by
  refine ⟨matchCore_small, ?_, ?_, ?_, ?_⟩
  · intro c k hk hsmall hside
    show matchGo c (4 + 1) c.idx0 = none
    exact matchGo_small_none c 4 c.idx0 k hk hsmall hside
  · intro c h
    exact matchGo_none_small c 4 c.idx0 h
  · intro c hbig
    show (matchGo c (4 + 1) c.idx0).isSome = true
    exact matchGo_some_of_big c 4 c.idx0 hbig
  · intro env ora odec omg ome ofl cra cdec cmg cme ccol sr ox oy so thr rb hhtm
    have hp : (matchPrep env ora odec omg ome ofl cra cdec cmg cme ccol sr ox oy so).idx0
        = [] := by
      simp [matchPrep, hhtm]
    have hnone : matchCore
        (matchCtx env (matchPrep env ora odec omg ome ofl cra cdec cmg cme ccol sr ox oy so)
          thr rb) = none :=
      matchCore_small _ (by rw [matchCtx_idx0, hp]; decide)
    simp [match_, hnone]

/-- C2 witness: a fit context with an empty pair list (zero cross-matches)
has a base mask of fewer than 3 points and the loop returns `None`. -/
theorem claim_C2_witness : countTrue cW2.idx0 < 3 ∧ matchCore cW2 = none :=
  ⟨by decide, claim_C2.1 cW2 (by decide)⟩

/-- C3 (amended): at every iteration the active mask of the refinement loop
is a pointwise subset of the base mask `idx0`, so its true-count never
exceeds that of `idx0` (the mask is rebuilt from `idx0` each round, source
lines 386-388).  The original claim's monotonicity is false: because the
mask is recomputed against the newly fitted model rather than intersected
with the previous mask, the true-count may grow between consecutive
iterations, as the counterexample shows. -/
theorem claim_C3 (c : FitCtx) (k : ℕ) :
    maskSub (maskIterFrom c c.idx0 k) c.idx0 ∧
      countTrue (maskIterFrom c c.idx0 k) ≤ countTrue c.idx0 := by
  cases k with
  | zero => exact ⟨fun i h => h, le_refl _⟩
  | succ k2 =>
    constructor
    · show maskSub (stepMask c (maskIterFrom c c.idx0 k2)) c.idx0
      exact recomputeMask_sub c _
    · show countTrue (stepMask c (maskIterFrom c c.idx0 k2)) ≤ _
      exact countTrue_recomputeMask_le c _

/-- C3 witness: the subset and count bounds applied to the concrete context
`cC3` at iteration 1. -/
theorem claim_C3_witness :
    cC3.idx0.getD 0 false = true ∧
      countTrue (maskIterFrom cC3 cC3.idx0 1) ≤ countTrue cC3.idx0 :=
  ⟨(claim_C3 cC3 1).1 0 (by rw [cC3_mask1]; rfl), (claim_C3 cC3 1).2⟩

/-- C3 counterexample: with the genuine weighted-least-squares solver on a
constant design (the weighted mean), positive threshold 5 and five valid
points, the active-mask count goes 5, 3, 4 across the first three
iterations of the loop - the count increases from iteration 1 to
iteration 2, refuting the claimed non-increase, while the run still
completes with a model bundle. -/
theorem claim_C3_counterexample :
    0 < cC3.threshold ∧
      countTrue (maskIterFrom cC3 cC3.idx0 1) = 3 ∧
      countTrue (maskIterFrom cC3 cC3.idx0 2) = 4 ∧
      ¬ countTrue (maskIterFrom cC3 cC3.idx0 2) ≤ countTrue (maskIterFrom cC3 cC3.idx0 1) ∧
      (matchCore cC3).isSome = true := by
  refine ⟨by norm_num [cC3], ?_, ?_, ?_, ?_⟩
  · rw [cC3_mask1]; rfl
  · rw [cC3_mask2]; rfl
  · rw [cC3_mask1, cC3_mask2]; decide
  · show (matchGo cC3 (4 + 1) cC3.idx0).isSome = true
    apply matchGo_some_of_big cC3 4 cC3.idx0
    intro k hk
    interval_cases k
    · decide
    · rw [cC3_mask1]; decide
    · rw [cC3_mask2]; decide
    · show 3 ≤ countTrue (stepMask cC3 (maskIterFrom cC3 cC3.idx0 2))
      rw [cC3_mask2, cC3_step_c]; decide
    · show 3 ≤ countTrue (stepMask cC3 (stepMask cC3 (maskIterFrom cC3 cC3.idx0 2)))
      rw [cC3_mask2, cC3_step_c, cC3_step_c]; decide

/-- C4: with a falsy threshold the loop performs exactly one regression
pass: it returns the coefficients of the single direct solve over the base
mask `idx0`, the model evaluated from those coefficients, and the inlier
mask equal to `idx0` (source lines 386-394: with `threshold = 0` the mask
is reset to `idx0`, rejection is skipped, and the loop breaks after the
first iteration); at the `match` level the returned bundle has
`idx = idx0`. -/
theorem claim_C4 :
    (∀ c : FitCtx, c.threshold = 0 → 3 ≤ countTrue c.idx0 →
        matchCore c = some (fitOnce c c.idx0, zeroModelOf c (fitOnce c c.idx0), c.idx0)) ∧
      (∀ (env : MatchEnv) (ora odec : List ℚ) (omg ome : List (Option ℚ)) (ofl : List ℕ)
          (cra cdec : List ℚ) (cmg : List (Option ℚ)) (cme ccol : Option (List (Option ℚ)))
          (sr : ℚ) (ox oy : Option (List ℚ)) (so : ℕ) (rb : Bool) (r : MatchResult),
        match_ env ora odec omg ome ofl cra cdec cmg cme ccol sr ox oy so 0 rb = some r →
        r.idx = r.idx0) := by
  constructor
  · intro c h0 h3
    show matchGo c (4 + 1) c.idx0 = _
    simp only [matchGo, if_neg (Nat.not_lt.mpr h3),
      if_pos (Or.inl h0 : c.threshold = 0 ∨ (4 : ℕ) = 0)]
    rw [recomputeMask, if_pos h0]
  · intro env ora odec omg ome ofl cra cdec cmg cme ccol sr ox oy so rb r h
    rcases hmc : matchCore (matchCtx env
        (matchPrep env ora odec omg ome ofl cra cdec cmg cme ccol sr ox oy so) 0 rb)
      with _ | t
    · simp [match_, hmc] at h
    · simp only [match_, hmc, Option.some.injEq] at h
      have hidx : t.2.2 = (matchCtx env
          (matchPrep env ora odec omg ome ofl cra cdec cmg cme ccol sr ox oy so) 0 rb).idx0 :=
        matchGo_thrZero _ rfl 4 _ t hmc
      rw [← h]
      exact hidx

/-- C4 witness: the `threshold = 0` result on a concrete three-point
context equals the direct solve with inlier mask `idx0`. -/
theorem claim_C4_witness :
    matchCore cW4
      = some (fitOnce cW4 cW4.idx0, zeroModelOf cW4 (fitOnce cW4 cW4.idx0), cW4.idx0) :=
  claim_C4.1 cW4 rfl (by decide)

/-- C5: the exported surface `zero_fn` uses only the positional
coefficients - appending extra (colour) coefficients beyond the spatial
basis length leaves its value unchanged (the slice `C.params[0:X.shape[1]]`
at source line 409) - and with `spatial_order = 0` it is
position-invariant: at every point it equals the fitted constant term,
hence also its own value at the centroid. -/
theorem claim_C5 :
    (∀ (C D : List ℚ) (order : ℕ) (x0 y0 xx yy : ℚ),
        (make_series 1 0 0 order true).length ≤ C.length →
        zero_fn (C ++ D) order x0 y0 xx yy = zero_fn C order x0 y0 xx yy) ∧
      (∀ (C : List ℚ) (x0 y0 xx yy : ℚ),
        zero_fn C 0 x0 y0 xx yy = C.headD 0 ∧
          zero_fn C 0 x0 y0 xx yy = zero_fn C 0 x0 y0 x0 y0) := by
  constructor
  · intro C D order x0 y0 xx yy h
    simp only [zero_fn]
    have hlen : (make_series 1 (xx - x0) (yy - y0) order true).length ≤ C.length := by
      rw [make_series_length 1 (xx - x0) (yy - y0) 1 0 0 order true]
      exact h
    rw [List.take_append_of_le_length hlen]
  · intro C x0 y0 xx yy
    have h1 : ∀ a b : ℚ, zero_fn C 0 x0 y0 a b = C.headD 0 := by
      intro a b
      unfold zero_fn
      rcases C with _ | ⟨c0, C2⟩
      · simp [make_series, dotProd]
      · simp [make_series, dotProd]
    exact ⟨h1 xx yy, by rw [h1, h1]⟩

/-- C5 witness: with a one-coefficient positional part and an appended
colour coefficient, `zero_fn` ignores the colour coefficient and evaluates
to the constant term everywhere, including the centroid. -/
theorem claim_C5_witness :
    zero_fn ([7] ++ [3]) 0 0 0 5 5 = zero_fn [7] 0 0 0 5 5 ∧
      zero_fn [7] 0 0 0 5 5 = ([7] : List ℚ).headD 0 ∧
      zero_fn [7] 0 0 0 5 5 = zero_fn [7] 0 0 0 0 0 :=
  ⟨claim_C5.1 [7] [3] 0 0 0 5 5 (by decide),
    (claim_C5.2 [7] 0 0 5 5).1, (claim_C5.2 [7] 0 0 5 5).2⟩

end Stdpipe
